import Mathlib

/-!
# Shallow embedding of the `fn-ffi` crate

The crate passes closures across an FFI boundary by erasing their type:
an adapter stores a machine-word handle (`usize`, the address of the
environment) together with one or two fixed-signature function pointers
generated for the concrete closure type (`src/rfn.rs`, `src/rfnmut.rs`,
`src/rfnonce.rs`).

The embedding models the Rust heap explicitly: `Heap C` maps addresses
(`Nat`) to live environments of type `C`, carries the next allocation
address (starting at 1, so a legitimate allocation is never the zero
sentinel used by `RBoxFnOnce`), and logs every address passed to
`Box::from_raw`-and-drop in `freed`, so "released exactly once" is a
statement about that log.

A concrete closure is a pair of pure code and captured state.  Closures
usable through `Fn`/`FnMut` have code `C → P → R × C` (the state
component models mutation of the captured state, including interior
mutability behind a shared reference), and `FnOnce` closures have code
`C → P → R` (the state is consumed).  Calls are state-passing over the
heap; fallible dereference of a handle yields `Option`.
-/

/-- The Rust heap, restricted to the environments boxed by this crate.
`contents` is the live store, `next` the next raw address handed out by
`Box::into_raw` (allocation never returns 0), and `freed` the ordered log
of addresses reconstituted by `Box::from_raw` and dropped. -/
structure Heap (C : Type) where
  contents : Nat → Option C
  next : Nat
  freed : List Nat

variable {C P R : Type}

/-- A heap with no allocations; addresses start at 1 because a real
allocator never returns the null/zero address. -/
def Heap.empty (C : Type) : Heap C :=
  ⟨fun _ => none, 1, []⟩

/-- Well-formedness: the next address is at least 1 (never the zero
sentinel) and every logged freed address was previously handed out. -/
def Heap.WF (h : Heap C) : Prop :=
  1 ≤ h.next ∧ ∀ a ∈ h.freed, a < h.next

/-- `Box::new` followed by `Box::into_raw`: place `v` at the next fresh
address and return that address. -/
def Heap.alloc (h : Heap C) (v : C) : Nat × Heap C :=
  (h.next, ⟨fun a => if a = h.next then some v else h.contents a, h.next + 1, h.freed⟩)

/-- Store through a live reference (mutation of the pointed-to
environment, e.g. via `&mut T` or interior mutability). -/
def Heap.write (h : Heap C) (a : Nat) (v : C) : Heap C :=
  ⟨fun x => if x = a then some v else h.contents x, h.next, h.freed⟩

/-- `Box::from_raw` followed by `drop`: the cell dies and the release is
logged (the environment's own `Drop` effect happens at this point). -/
def Heap.free (h : Heap C) (a : Nat) : Heap C :=
  ⟨fun x => if x = a then none else h.contents x, h.next, h.freed ++ [a]⟩

/-- The fixed cross-boundary signature
`extern "C" fn(usize, TParam) -> TResult`, as a heap transformer: a
dispatch function receives the opaque handle and the parameter;
dereferencing a dead handle is modelled as `none`. -/
def Caller (C P R : Type) : Type :=
  Heap C → Nat → P → Option R × Heap C

/-- The fixed teardown signature `extern "C" fn(usize)`. -/
def Remover (C : Type) : Type :=
  Heap C → Nat → Heap C

/-- A concrete `Fn`/`FnMut` closure: code plus captured state.  The code
returns the updated captured state alongside the result (for `Fn` the
update models interior mutability, for `FnMut` direct mutation). -/
structure FnClosure (C P R : Type) where
  code : C → P → R × C
  state : C

/-- Direct invocation `f(p)` of the concrete closure. -/
def FnClosure.invoke (f : FnClosure C P R) (p : P) : R × C :=
  f.code f.state p

/-- `n`-fold direct invocation with the same parameter: the cumulative
effect on the captured state of calling the original closure `n` times. -/
def FnClosure.invokeN (code : C → P → R × C) (c : C) (p : P) : Nat → C
  | 0 => c
  | n + 1 => (code (FnClosure.invokeN code c p n) p).2

/-- A concrete `FnOnce` closure: code plus captured state; invocation
consumes the state. -/
structure FnOnceClosure (C P R : Type) where
  code : C → P → R
  state : C

/-- Direct invocation `f(p)` of the concrete once-closure. -/
def FnOnceClosure.invoke (f : FnOnceClosure C P R) (p : P) : R :=
  f.code f.state p

/-- `impl<TFn: Fn> RFn for TFn { fn call(&self, p) { (self)(p) } }`
(src/rfn.rs lines 7-11): the blanket implementation forwards to the
closure itself. -/
def RFn.call (f : FnClosure C P R) (p : P) : R × C :=
  f.code f.state p

/-- `impl<TFn: FnMut> RFnMut for TFn` (src/rfnmut.rs lines 7-11). -/
def RFnMut.call (f : FnClosure C P R) (p : P) : R × C :=
  f.code f.state p

/-- `impl<TFn: FnOnce> RFnOnce for TFn` (src/rfnonce.rs lines 5-9). -/
def RFnOnce.call (f : FnOnceClosure C P R) (p : P) : R :=
  f.code f.state p

/-- Borrow adapter `RRefFn` (src/rfn.rs lines 16-20): dispatch-function
reference plus opaque handle; the `PhantomData` lifetime marker is
zero-width and compile-time only, so it has no runtime counterpart. -/
structure RRefFn (C P R : Type) where
  ptr : Caller C P R
  inner : Nat

/-- The generated dispatch function of `RRefFn::from` (src/rfn.rs lines
30-36): reinterpret the handle as `&T` and invoke the closure; interior
mutation of the captured state is written back through the reference. -/
def refFnPtr (code : C → P → R × C) : Caller C P R := fun h a p =>
  match h.contents a with
  | some c => (some (code c p).1, h.write a (code c p).2)
  | none => (none, h)

/-- `impl From<&'a T> for RRefFn` (src/rfn.rs lines 22-42): the handle is
the address `a` at which the caller's closure lives; no allocation. -/
def RRefFn.fromRef (code : C → P → R × C) (a : Nat) : RRefFn C P R :=
  ⟨refFnPtr code, a⟩

/-- `RRefFn::call` (src/rfn.rs lines 43-47): `(self.ptr)(self.inner, p)`. -/
def RRefFn.call (s : RRefFn C P R) (h : Heap C) (p : P) : Option R × Heap C :=
  s.ptr h s.inner p

/-- `RRefFn` has no `Drop` implementation: discarding it is a no-op. -/
def RRefFn.drop (_ : RRefFn C P R) (h : Heap C) : Heap C :=
  h

/-- `n` successive calls of the borrow adapter with the same parameter. -/
def RRefFn.callN (s : RRefFn C P R) (h : Heap C) (p : P) : Nat → Heap C
  | 0 => h
  | n + 1 => (s.call (s.callN h p n) p).2

/-- Borrow adapter `RRefFnMut` (src/rfnmut.rs lines 16-20). -/
structure RRefFnMut (C P R : Type) where
  ptr : Caller C P R
  inner : Nat

/-- The generated dispatch function of `RRefFnMut::from` (src/rfnmut.rs
lines 29-35): reinterpret the handle as `&mut T` and invoke. -/
def refFnMutPtr (code : C → P → R × C) : Caller C P R := fun h a p =>
  match h.contents a with
  | some c => (some (code c p).1, h.write a (code c p).2)
  | none => (none, h)

/-- `impl From<&'a mut T> for RRefFnMut` (src/rfnmut.rs lines 22-41). -/
def RRefFnMut.fromMutRef (code : C → P → R × C) (a : Nat) : RRefFnMut C P R :=
  ⟨refFnMutPtr code, a⟩

/-- `RRefFnMut::call` (src/rfnmut.rs lines 42-46). -/
def RRefFnMut.call (s : RRefFnMut C P R) (h : Heap C) (p : P) : Option R × Heap C :=
  s.ptr h s.inner p

/-- `RRefFnMut` has no `Drop` implementation: discarding it is a no-op. -/
def RRefFnMut.drop (_ : RRefFnMut C P R) (h : Heap C) : Heap C :=
  h

/-- `n` successive calls of the mutable borrow adapter. -/
def RRefFnMut.callN (s : RRefFnMut C P R) (h : Heap C) (p : P) : Nat → Heap C
  | 0 => h
  | n + 1 => (s.call (s.callN h p n) p).2

/-- Owning adapter `RBoxFn` (src/rfn.rs lines 54-61): dispatch-function
reference, teardown-function reference, opaque handle — three words. -/
structure RBoxFn (C P R : Type) where
  caller : Caller C P R
  remover : Remover C
  inner : Nat

/-- The generated dispatch function of `RBoxFn::from` (src/rfn.rs lines
72-77): `(unsafe { &*(that as *mut TFn) })(param)` — shared dereference
of the boxed closure; interior mutation is written back. -/
def boxFnCaller (code : C → P → R × C) : Caller C P R := fun h a p =>
  match h.contents a with
  | some c => (some (code c p).1, h.write a (code c p).2)
  | none => (none, h)

/-- The generated teardown function (src/rfn.rs lines 78-83,
src/rfnmut.rs lines 75-80, src/rfnonce.rs lines 40-45):
`drop(Box::from_raw(that as *mut TFn))`. -/
def boxDropper (C : Type) : Remover C := fun h a =>
  h.free a

/-- `impl From<TFn> for RBoxFn` (src/rfn.rs lines 63-91): box the
closure's captured state, the handle is the raw heap address. -/
def RBoxFn.fromFn (code : C → P → R × C) (v : C) (h : Heap C) :
    RBoxFn C P R × Heap C :=
  ((⟨boxFnCaller code, boxDropper C, (h.alloc v).1⟩ : RBoxFn C P R), (h.alloc v).2)

/-- `RBoxFn::call` (src/rfn.rs lines 99-103): `(self.caller)(self.inner, p)`.
The receiver is `&self`; the adapter is returned alongside the result and
the heap to record that none of its fields is touched. -/
def RBoxFn.call (s : RBoxFn C P R) (h : Heap C) (p : P) :
    Option R × RBoxFn C P R × Heap C :=
  ((s.caller h s.inner p).1, s, (s.caller h s.inner p).2)

/-- `impl Drop for RBoxFn` (src/rfn.rs lines 93-97):
`(self.remover)(self.inner)` unconditionally. -/
def RBoxFn.drop (s : RBoxFn C P R) (h : Heap C) : Heap C :=
  s.remover h s.inner

/-- `n` successive calls threading the adapter value. -/
def RBoxFn.callN (s : RBoxFn C P R) (h : Heap C) (p : P) :
    Nat → RBoxFn C P R × Heap C
  | 0 => (s, h)
  | n + 1 =>
    ((s.callN h p n).1.call (s.callN h p n).2 p).2

/-- Owning adapter `RBoxFnMut` (src/rfnmut.rs lines 49-56). -/
structure RBoxFnMut (C P R : Type) where
  caller : Caller C P R
  remover : Remover C
  inner : Nat

/-- The generated dispatch function of `RBoxFnMut::from` (src/rfnmut.rs
lines 69-74): `(unsafe { &mut *(that as *mut TFn) })(param)`. -/
def boxFnMutCaller (code : C → P → R × C) : Caller C P R := fun h a p =>
  match h.contents a with
  | some c => (some (code c p).1, h.write a (code c p).2)
  | none => (none, h)

/-- `impl From<TFn> for RBoxFnMut` (src/rfnmut.rs lines 59-86). -/
def RBoxFnMut.fromFn (code : C → P → R × C) (v : C) (h : Heap C) :
    RBoxFnMut C P R × Heap C :=
  ((⟨boxFnMutCaller code, boxDropper C, (h.alloc v).1⟩ : RBoxFnMut C P R), (h.alloc v).2)

/-- `RBoxFnMut::call` (src/rfnmut.rs lines 94-98): the receiver is
`&mut self`, but the body assigns no field, so the returned adapter is
the unchanged `s`. -/
def RBoxFnMut.call (s : RBoxFnMut C P R) (h : Heap C) (p : P) :
    Option R × RBoxFnMut C P R × Heap C :=
  ((s.caller h s.inner p).1, s, (s.caller h s.inner p).2)

/-- `impl Drop for RBoxFnMut` (src/rfnmut.rs lines 88-92). -/
def RBoxFnMut.drop (s : RBoxFnMut C P R) (h : Heap C) : Heap C :=
  s.remover h s.inner

/-- `n` successive calls threading the adapter value. -/
def RBoxFnMut.callN (s : RBoxFnMut C P R) (h : Heap C) (p : P) :
    Nat → RBoxFnMut C P R × Heap C
  | 0 => (s, h)
  | n + 1 =>
    ((s.callN h p n).1.call (s.callN h p n).2 p).2

/-- Owning once-adapter `RBoxFnOnce` (src/rfnonce.rs lines 11-18): same
three-word layout, with handle value 0 reserved to mean "already
consumed". -/
structure RBoxFnOnce (C P R : Type) where
  caller : Caller C P R
  remover : Remover C
  inner : Nat

/-- The generated dispatch function of `RBoxFnOnce::from` (src/rfnonce.rs
lines 28-33): `Box::from_raw` recovers ownership of the closure, which is
invoked and consumed — the heap cell dies and the release is logged. -/
def boxFnOnceCaller (code : C → P → R) : Caller C P R := fun h a p =>
  match h.contents a with
  | some c => (some (code c p), h.free a)
  | none => (none, h)

/-- `impl From<T> for RBoxFnOnce` (src/rfnonce.rs lines 20-48). -/
def RBoxFnOnce.fromFn (code : C → P → R) (v : C) (h : Heap C) :
    RBoxFnOnce C P R × Heap C :=
  ((⟨boxFnOnceCaller code, boxDropper C, (h.alloc v).1⟩ : RBoxFnOnce C P R), (h.alloc v).2)

/-- `impl Drop for RBoxFnOnce` (src/rfnonce.rs lines 49-55): teardown
runs only when the stored handle is not the zero sentinel. -/
def RBoxFnOnce.drop (s : RBoxFnOnce C P R) (h : Heap C) : Heap C :=
  if s.inner ≠ 0 then s.remover h s.inner else h

/-- `RBoxFnOnce::call` (src/rfnonce.rs lines 56-62):
`let inner = self.inner; self.inner = 0; (self.caller)(inner, p)` — the
handle is captured locally, the stored handle is overwritten with the
sentinel, and the dispatch function receives the captured value.  Because
`call` takes `self` by value, `Drop` runs on the zeroed `self` when the
body ends; that implicit discard is the final step here. -/
def RBoxFnOnce.call (s : RBoxFnOnce C P R) (h : Heap C) (p : P) :
    Option R × Heap C :=
  ((s.caller h s.inner p).1,
    RBoxFnOnce.drop (⟨s.caller, s.remover, 0⟩ : RBoxFnOnce C P R) (s.caller h s.inner p).2)

/-! ## Helper lemmas -/

/-- The dispatch body generated for a shared borrow coincides with the
one generated for a shared box: both dereference and invoke. -/
theorem refFnPtr_eq_boxFnCaller (code : C → P → R × C) :
    refFnPtr code = boxFnCaller code := rfl

/-- The dispatch body generated for a mutable borrow coincides with the
shared-box one. -/
theorem refFnMutPtr_eq_boxFnCaller (code : C → P → R × C) :
    refFnMutPtr code = boxFnCaller code := rfl

/-- The dispatch body generated for a mutable box coincides with the
shared-box one. -/
theorem boxFnMutCaller_eq_boxFnCaller (code : C → P → R × C) :
    boxFnMutCaller code = boxFnCaller code := rfl

/-- A `Fn`/`FnMut` dispatch never allocates and never frees. -/
theorem boxFnCaller_frame (code : C → P → R × C) (h : Heap C) (a : Nat) (p : P) :
    (boxFnCaller code h a p).2.freed = h.freed ∧
    (boxFnCaller code h a p).2.next = h.next := by
  unfold boxFnCaller
  cases h.contents a <;> simp [Heap.write]

/-- Evaluating a `Fn`/`FnMut` dispatch on a live handle. -/
theorem boxFnCaller_contents {c : C} (code : C → P → R × C) (h : Heap C)
    (a : Nat) (p : P) (hc : h.contents a = some c) :
    boxFnCaller code h a p = (some (code c p).1, h.write a (code c p).2) := by
  unfold boxFnCaller
  rw [hc]

/-- After writing at `a`, reading at `a` gives the written value. -/
theorem Heap.write_contents_self (h : Heap C) (a : Nat) (v : C) :
    (h.write a v).contents a = some v := by
  simp [Heap.write]

/-- Freeing appends exactly one entry for the freed address. -/
theorem Heap.free_count_self (h : Heap C) (a : Nat) :
    (h.free a).freed.count a = h.freed.count a + 1 := by
  simp [Heap.free]

/-- In a well-formed heap the next fresh address was never freed. -/
theorem Heap.WF_count_next (h : Heap C) (hw : h.WF) :
    h.freed.count h.next = 0 := by
  rw [List.count_eq_zero]
  intro hmem
  exact absurd (hw.2 h.next hmem) (lt_irrefl h.next)

/-- Invariant of repeated `RRefFn::call` on a live handle: the handle's
cell holds exactly the state the original closure would have after the
same number of direct invocations, and nothing is allocated or freed. -/
theorem rreffn_callN_invariant (code : C → P → R × C) (c : C) (a : Nat)
    (h : Heap C) (p : P) (n : Nat) (hc : h.contents a = some c) :
    ((RRefFn.fromRef code a).callN h p n).contents a
        = some (FnClosure.invokeN code c p n) ∧
    ((RRefFn.fromRef code a).callN h p n).freed = h.freed ∧
    ((RRefFn.fromRef code a).callN h p n).next = h.next := by
  induction n with
  | zero => exact ⟨hc, rfl, rfl⟩
  | succ n ih =>
    obtain ⟨ih1, ih2, ih3⟩ := ih
    have hcall : (RRefFn.fromRef code a).call ((RRefFn.fromRef code a).callN h p n) p
        = (some (code (FnClosure.invokeN code c p n) p).1,
           ((RRefFn.fromRef code a).callN h p n).write a
             (code (FnClosure.invokeN code c p n) p).2) := by
      show refFnPtr code _ a p = _
      rw [refFnPtr_eq_boxFnCaller]
      exact boxFnCaller_contents code _ a p ih1
    refine ⟨?_, ?_, ?_⟩
    · show ((RRefFn.fromRef code a).call ((RRefFn.fromRef code a).callN h p n) p).2.contents a = _
      rw [hcall]
      exact Heap.write_contents_self _ a _
    · show ((RRefFn.fromRef code a).call ((RRefFn.fromRef code a).callN h p n) p).2.freed = _
      rw [hcall]
      simpa [Heap.write] using ih2
    · show ((RRefFn.fromRef code a).call ((RRefFn.fromRef code a).callN h p n) p).2.next = _
      rw [hcall]
      simpa [Heap.write] using ih3

/-- Invariant of repeated `RRefFnMut::call` on a live handle, mirroring
the shared-borrow case. -/
theorem rreffnmut_callN_invariant (code : C → P → R × C) (c : C) (a : Nat)
    (h : Heap C) (p : P) (n : Nat) (hc : h.contents a = some c) :
    ((RRefFnMut.fromMutRef code a).callN h p n).contents a
        = some (FnClosure.invokeN code c p n) ∧
    ((RRefFnMut.fromMutRef code a).callN h p n).freed = h.freed ∧
    ((RRefFnMut.fromMutRef code a).callN h p n).next = h.next := by
  induction n with
  | zero => exact ⟨hc, rfl, rfl⟩
  | succ n ih =>
    obtain ⟨ih1, ih2, ih3⟩ := ih
    have hcall : (RRefFnMut.fromMutRef code a).call ((RRefFnMut.fromMutRef code a).callN h p n) p
        = (some (code (FnClosure.invokeN code c p n) p).1,
           ((RRefFnMut.fromMutRef code a).callN h p n).write a
             (code (FnClosure.invokeN code c p n) p).2) := by
      show refFnMutPtr code _ a p = _
      rw [refFnMutPtr_eq_boxFnCaller]
      exact boxFnCaller_contents code _ a p ih1
    refine ⟨?_, ?_, ?_⟩
    · show ((RRefFnMut.fromMutRef code a).call ((RRefFnMut.fromMutRef code a).callN h p n) p).2.contents a = _
      rw [hcall]
      exact Heap.write_contents_self _ a _
    · show ((RRefFnMut.fromMutRef code a).call ((RRefFnMut.fromMutRef code a).callN h p n) p).2.freed = _
      rw [hcall]
      simpa [Heap.write] using ih2
    · show ((RRefFnMut.fromMutRef code a).call ((RRefFnMut.fromMutRef code a).callN h p n) p).2.next = _
      rw [hcall]
      simpa [Heap.write] using ih3

/-- Repeated `RBoxFn::call` returns the adapter unchanged (the receiver
is `&self`; no field is assigned). -/
theorem rboxfn_callN_fst (s : RBoxFn C P R) (h : Heap C) (p : P) (n : Nat) :
    (s.callN h p n).1 = s := by
  induction n with
  | zero => rfl
  | succ n ih => simpa [RBoxFn.callN, RBoxFn.call] using ih

/-- Repeated `RBoxFn::call` through a generated dispatch neither
allocates nor frees. -/
theorem rboxfn_callN_frame (code : C → P → R × C) (s : RBoxFn C P R)
    (hc : s.caller = boxFnCaller code) (h : Heap C) (p : P) (n : Nat) :
    (s.callN h p n).2.freed = h.freed ∧ (s.callN h p n).2.next = h.next := by
  induction n with
  | zero => exact ⟨rfl, rfl⟩
  | succ n ih =>
    obtain ⟨ih1, ih2⟩ := ih
    have hfst := rboxfn_callN_fst s h p n
    have : (s.callN h p (n + 1)).2 = (s.caller (s.callN h p n).2 s.inner p).2 := by
      simp [RBoxFn.callN, RBoxFn.call, hfst]
    rw [this, hc]
    obtain ⟨hf, hn⟩ := boxFnCaller_frame code (s.callN h p n).2 s.inner p
    exact ⟨hf.trans ih1, hn.trans ih2⟩

/-- Repeated `RBoxFnMut::call` returns the adapter unchanged (the body
of `call` assigns no field even though the receiver is `&mut self`). -/
theorem rboxfnmut_callN_fst (s : RBoxFnMut C P R) (h : Heap C) (p : P) (n : Nat) :
    (s.callN h p n).1 = s := by
  induction n with
  | zero => rfl
  | succ n ih => simpa [RBoxFnMut.callN, RBoxFnMut.call] using ih

/-- Repeated `RBoxFnMut::call` through a generated dispatch neither
allocates nor frees. -/
theorem rboxfnmut_callN_frame (code : C → P → R × C) (s : RBoxFnMut C P R)
    (hc : s.caller = boxFnMutCaller code) (h : Heap C) (p : P) (n : Nat) :
    (s.callN h p n).2.freed = h.freed ∧ (s.callN h p n).2.next = h.next := by
  induction n with
  | zero => exact ⟨rfl, rfl⟩
  | succ n ih =>
    obtain ⟨ih1, ih2⟩ := ih
    have hfst := rboxfnmut_callN_fst s h p n
    have : (s.callN h p (n + 1)).2 = (s.caller (s.callN h p n).2 s.inner p).2 := by
      simp [RBoxFnMut.callN, RBoxFnMut.call, hfst]
    rw [this, hc, boxFnMutCaller_eq_boxFnCaller]
    obtain ⟨hf, hn⟩ := boxFnCaller_frame code (s.callN h p n).2 s.inner p
    exact ⟨hf.trans ih1, hn.trans ih2⟩

/-- Allocation places the value at the returned address. -/
theorem Heap.alloc_contents_self (h : Heap C) (v : C) :
    (h.alloc v).2.contents (h.alloc v).1 = some v := by
  simp [Heap.alloc]

/-- Allocation preserves the freed log. -/
theorem Heap.alloc_freed (h : Heap C) (v : C) :
    (h.alloc v).2.freed = h.freed := rfl

/-! ## Claim theorems -/

/-- C9: every ordinary closure satisfies the corresponding capability
contract directly, without being wrapped in any adapter: the blanket
implementations of `RFn`, `RFnMut` and `RFnOnce` for all `Fn`/`FnMut`/
`FnOnce` types forward to direct invocation of the closure itself. -/
theorem blanket_impls_forward (f : FnClosure C P R) (g : FnOnceClosure C P R) (p : P) :
    RFn.call f p = f.invoke p ∧
    RFnMut.call f p = f.invoke p ∧
    RFnOnce.call g p = g.invoke p :=
  ⟨rfl, rfl, rfl⟩

/-- C1: invoking the call operation of any adapter constructed from a
concrete callable with a parameter `p` returns the same result as
invoking the callable directly with `p`.  The borrow adapters are read
off a heap holding the caller's closure state `c` at address `a`; the
owning adapters box `c` themselves. -/
theorem adapters_call_transparent (code : C → P → R × C) (once : C → P → R)
    (c : C) (p : P) (h : Heap C) (a : Nat) (hc : h.contents a = some c) :
    ((RRefFn.fromRef code a).call h p).1
        = some (FnClosure.invoke ⟨code, c⟩ p).1 ∧
    ((RRefFnMut.fromMutRef code a).call h p).1
        = some (FnClosure.invoke ⟨code, c⟩ p).1 ∧
    ((RBoxFn.fromFn code c h).1.call (RBoxFn.fromFn code c h).2 p).1
        = some (FnClosure.invoke ⟨code, c⟩ p).1 ∧
    ((RBoxFnMut.fromFn code c h).1.call (RBoxFnMut.fromFn code c h).2 p).1
        = some (FnClosure.invoke ⟨code, c⟩ p).1 ∧
    ((RBoxFnOnce.fromFn once c h).1.call (RBoxFnOnce.fromFn once c h).2 p).1
        = some (FnOnceClosure.invoke ⟨once, c⟩ p) := by
  have halloc := Heap.alloc_contents_self h c
  refine ⟨?_, ?_, ?_, ?_, ?_⟩
  · show (refFnPtr code h a p).1 = _
    rw [refFnPtr_eq_boxFnCaller, boxFnCaller_contents code h a p hc]
    rfl
  · show (refFnMutPtr code h a p).1 = _
    rw [refFnMutPtr_eq_boxFnCaller, boxFnCaller_contents code h a p hc]
    rfl
  · show (boxFnCaller code (h.alloc c).2 (h.alloc c).1 p).1 = _
    rw [boxFnCaller_contents code _ _ p halloc]
    rfl
  · show (boxFnMutCaller code (h.alloc c).2 (h.alloc c).1 p).1 = _
    rw [boxFnMutCaller_eq_boxFnCaller, boxFnCaller_contents code _ _ p halloc]
    rfl
  · show (boxFnOnceCaller once (h.alloc c).2 (h.alloc c).1 p).1 = _
    unfold boxFnOnceCaller
    rw [halloc]
    rfl

/-- Witness for C1 at a concrete input: the environment is the number 5
at address 1, the closure adds its parameter, the once-closure likewise;
calling through each of the five adapters with parameter 2 yields 7. -/
theorem adapters_call_transparent_witness :
    (((Heap.empty Nat).alloc 5).2.contents 1 = some 5) ∧
    (((RRefFn.fromRef (fun (c p : Nat) => (c + p, c)) 1).call
        ((Heap.empty Nat).alloc 5).2 2).1 = some 7 ∧
     ((RRefFnMut.fromMutRef (fun (c p : Nat) => (c + p, c)) 1).call
        ((Heap.empty Nat).alloc 5).2 2).1 = some 7 ∧
     ((RBoxFn.fromFn (fun (c p : Nat) => (c + p, c)) 5 ((Heap.empty Nat).alloc 5).2).1.call
        (RBoxFn.fromFn (fun (c p : Nat) => (c + p, c)) 5 ((Heap.empty Nat).alloc 5).2).2 2).1 = some 7 ∧
     ((RBoxFnMut.fromFn (fun (c p : Nat) => (c + p, c)) 5 ((Heap.empty Nat).alloc 5).2).1.call
        (RBoxFnMut.fromFn (fun (c p : Nat) => (c + p, c)) 5 ((Heap.empty Nat).alloc 5).2).2 2).1 = some 7 ∧
     ((RBoxFnOnce.fromFn (fun (c p : Nat) => c + p) 5 ((Heap.empty Nat).alloc 5).2).1.call
        (RBoxFnOnce.fromFn (fun (c p : Nat) => c + p) 5 ((Heap.empty Nat).alloc 5).2).2 2).1 = some 7) :=
  ⟨rfl, adapters_call_transparent (fun c p => (c + p, c)) (fun c p => c + p) 5 2
      ((Heap.empty Nat).alloc 5).2 1 rfl⟩

/-- C2: exactly one release path runs over an `RBoxFnOnce` adapter's
lifetime.  If `call` runs: the environment is released exactly once (the
freed log gains exactly one entry for the handle), and the adapter's
subsequent discard — which sees the stored handle overwritten with the
zero sentinel — skips the teardown function.  If `call` never runs:
discard runs the teardown exactly once.  Never do both paths release the
same environment. -/
theorem rboxfnonce_exactly_once_release
    (code : C → P → R) (v : C) (p : P) (h : Heap C) (hw : h.WF)
    (s : RBoxFnOnce C P R) (h1 : Heap C)
    (hs : RBoxFnOnce.fromFn code v h = (s, h1)) :
    ((s.call h1 p).2.freed.count s.inner = 1) ∧
    (RBoxFnOnce.drop (⟨s.caller, s.remover, 0⟩ : RBoxFnOnce C P R)
        ((s.caller h1 s.inner p).2) = (s.caller h1 s.inner p).2) ∧
    ((s.drop h1).freed.count s.inner = 1) := by
  have hs1 : s = (⟨boxFnOnceCaller code, boxDropper C, (h.alloc v).1⟩ : RBoxFnOnce C P R) := by
    have := congrArg Prod.fst hs
    exact this.symm
  have hs2 : h1 = (h.alloc v).2 := by
    have := congrArg Prod.snd hs
    exact this.symm
  subst hs1 hs2
  have hlive := Heap.alloc_contents_self h v
  have hone : boxFnOnceCaller code (h.alloc v).2 (h.alloc v).1 p
      = (some (code v p), (h.alloc v).2.free (h.alloc v).1) := by
    unfold boxFnOnceCaller
    rw [hlive]
  have hcount : ((h.alloc v).2.free (h.alloc v).1).freed.count (h.alloc v).1 = 1 := by
    rw [Heap.free_count_self, Heap.alloc_freed]
    have : (h.alloc v).1 = h.next := rfl
    rw [this, Heap.WF_count_next h hw]
  refine ⟨?_, ?_, ?_⟩
  · show (RBoxFnOnce.drop _ (boxFnOnceCaller code (h.alloc v).2 (h.alloc v).1 p).2).freed.count _ = 1
    rw [hone]
    simpa [RBoxFnOnce.drop] using hcount
  · simp [RBoxFnOnce.drop]
  · show (RBoxFnOnce.drop _ (h.alloc v).2).freed.count (h.alloc v).1 = 1
    have hnz : (h.alloc v).1 ≠ 0 := by
      have : 1 ≤ h.next := hw.1
      simpa [Heap.alloc] using Nat.pos_iff_ne_zero.mp (lt_of_lt_of_le Nat.zero_lt_one this)
    simpa [RBoxFnOnce.drop, hnz, boxDropper] using hcount

/-- Witness for C2 at a concrete input: once-closure adding its
parameter over environment 5, boxed into the empty heap and called with
parameter 2 (or discarded uncalled): each path logs exactly one release. -/
theorem rboxfnonce_exactly_once_release_witness :
    (Heap.empty Nat).WF ∧
    ((((RBoxFnOnce.fromFn (fun (c p : Nat) => c + p) 5 (Heap.empty Nat)).1.call
        (RBoxFnOnce.fromFn (fun (c p : Nat) => c + p) 5 (Heap.empty Nat)).2 2).2.freed.count
        (RBoxFnOnce.fromFn (fun (c p : Nat) => c + p) 5 (Heap.empty Nat)).1.inner = 1) ∧
     (RBoxFnOnce.drop
        (⟨(RBoxFnOnce.fromFn (fun (c p : Nat) => c + p) 5 (Heap.empty Nat)).1.caller,
          (RBoxFnOnce.fromFn (fun (c p : Nat) => c + p) 5 (Heap.empty Nat)).1.remover,
          0⟩ : RBoxFnOnce Nat Nat Nat)
        (((RBoxFnOnce.fromFn (fun (c p : Nat) => c + p) 5 (Heap.empty Nat)).1.caller
            (RBoxFnOnce.fromFn (fun (c p : Nat) => c + p) 5 (Heap.empty Nat)).2
            (RBoxFnOnce.fromFn (fun (c p : Nat) => c + p) 5 (Heap.empty Nat)).1.inner 2).2)
        = ((RBoxFnOnce.fromFn (fun (c p : Nat) => c + p) 5 (Heap.empty Nat)).1.caller
            (RBoxFnOnce.fromFn (fun (c p : Nat) => c + p) 5 (Heap.empty Nat)).2
            (RBoxFnOnce.fromFn (fun (c p : Nat) => c + p) 5 (Heap.empty Nat)).1.inner 2).2) ∧
     (((RBoxFnOnce.fromFn (fun (c p : Nat) => c + p) 5 (Heap.empty Nat)).1.drop
        (RBoxFnOnce.fromFn (fun (c p : Nat) => c + p) 5 (Heap.empty Nat)).2).freed.count
        (RBoxFnOnce.fromFn (fun (c p : Nat) => c + p) 5 (Heap.empty Nat)).1.inner = 1)) :=
  ⟨⟨le_refl 1, by simp [Heap.empty]⟩,
   rboxfnonce_exactly_once_release (fun c p => c + p) 5 2 (Heap.empty Nat)
     ⟨le_refl 1, by simp [Heap.empty]⟩ _ _ rfl⟩

/-- C3: `RBoxFnOnce::call` captures the current handle, overwrites the
stored handle with the zero sentinel before the dispatch runs, and then
invokes the dispatch function with the captured pre-sentinel value: the
whole call equals the dispatch applied to the captured handle (the
sentinel-guarded discard that follows contributes nothing, because the
overwrite already happened), and for a constructed adapter the captured
handle is never the sentinel. -/
theorem rboxfnonce_call_order
    (code : C → P → R) (v : C) (p : P) (h : Heap C) (hw : h.WF)
    (s : RBoxFnOnce C P R) (h1 : Heap C)
    (hs : RBoxFnOnce.fromFn code v h = (s, h1)) :
    s.inner ≠ 0 ∧
    s.call h1 p = s.caller h1 s.inner p := by
  constructor
  · have hs1 : s.inner = (h.alloc v).1 := by
      have := congrArg (fun x : RBoxFnOnce C P R × Heap C => x.1.inner) hs
      exact this.symm
    rw [hs1]
    have : 1 ≤ h.next := hw.1
    simpa [Heap.alloc] using Nat.pos_iff_ne_zero.mp (lt_of_lt_of_le Nat.zero_lt_one this)
  · simp [RBoxFnOnce.call, RBoxFnOnce.drop]

/-- Witness for C3 at a concrete input: a constructed once-adapter over
environment 5 has the nonzero handle 1, and calling with parameter 2 is
exactly the dispatch at that pre-sentinel handle. -/
theorem rboxfnonce_call_order_witness :
    (Heap.empty Nat).WF ∧
    ((RBoxFnOnce.fromFn (fun (c p : Nat) => c + p) 5 (Heap.empty Nat)).1.inner ≠ 0 ∧
     (RBoxFnOnce.fromFn (fun (c p : Nat) => c + p) 5 (Heap.empty Nat)).1.call
        (RBoxFnOnce.fromFn (fun (c p : Nat) => c + p) 5 (Heap.empty Nat)).2 2
      = (RBoxFnOnce.fromFn (fun (c p : Nat) => c + p) 5 (Heap.empty Nat)).1.caller
          (RBoxFnOnce.fromFn (fun (c p : Nat) => c + p) 5 (Heap.empty Nat)).2
          (RBoxFnOnce.fromFn (fun (c p : Nat) => c + p) 5 (Heap.empty Nat)).1.inner 2) :=
  ⟨⟨le_refl 1, by simp [Heap.empty]⟩,
   rboxfnonce_call_order (fun c p => c + p) 5 2 (Heap.empty Nat)
     ⟨le_refl 1, by simp [Heap.empty]⟩ _ _ rfl⟩

/-- Freeing kills the cell. -/
theorem Heap.free_contents_self (h : Heap C) (a : Nat) :
    (h.free a).contents a = none := by
  simp [Heap.free]

/-- Freeing logs the address. -/
theorem Heap.free_mem_freed (h : Heap C) (a : Nat) :
    a ∈ (h.free a).freed := by
  simp [Heap.free]

/-- C4: discarding an owning shared or mutable adapter runs its teardown
unconditionally and exactly once, no matter how many calls (including
zero) happened first: after `n` calls, dropping the adapter leaves
exactly one release of its handle in the freed log, so the captured
environment's own teardown effect occurs exactly once. -/
theorem rbox_drop_exactly_once
    (code : C → P → R × C) (v : C) (p : P) (h : Heap C) (hw : h.WF) (n : Nat)
    (s : RBoxFn C P R) (h1 : Heap C) (hs : RBoxFn.fromFn code v h = (s, h1))
    (t : RBoxFnMut C P R) (h2 : Heap C) (ht : RBoxFnMut.fromFn code v h = (t, h2)) :
    ((RBoxFn.drop (s.callN h1 p n).1 (s.callN h1 p n).2).freed.count s.inner = 1) ∧
    ((RBoxFnMut.drop (t.callN h2 p n).1 (t.callN h2 p n).2).freed.count t.inner = 1) := by
  have hnext : (h.alloc v).1 = h.next := rfl
  constructor
  · have hsub1 : s = (⟨boxFnCaller code, boxDropper C, (h.alloc v).1⟩ : RBoxFn C P R) := by
      have := congrArg Prod.fst hs
      exact this.symm
    have hsub2 : h1 = (h.alloc v).2 := by
      have := congrArg Prod.snd hs
      exact this.symm
    subst hsub1 hsub2
    have hfst := rboxfn_callN_fst
      (⟨boxFnCaller code, boxDropper C, (h.alloc v).1⟩ : RBoxFn C P R) (h.alloc v).2 p n
    have hframe := rboxfn_callN_frame code
      (⟨boxFnCaller code, boxDropper C, (h.alloc v).1⟩ : RBoxFn C P R) rfl (h.alloc v).2 p n
    simp only [RBoxFn.drop, hfst, boxDropper]
    rw [Heap.free_count_self, hframe.1, Heap.alloc_freed, hnext, Heap.WF_count_next h hw]
  · have hsub1 : t = (⟨boxFnMutCaller code, boxDropper C, (h.alloc v).1⟩ : RBoxFnMut C P R) := by
      have := congrArg Prod.fst ht
      exact this.symm
    have hsub2 : h2 = (h.alloc v).2 := by
      have := congrArg Prod.snd ht
      exact this.symm
    subst hsub1 hsub2
    have hfst := rboxfnmut_callN_fst
      (⟨boxFnMutCaller code, boxDropper C, (h.alloc v).1⟩ : RBoxFnMut C P R) (h.alloc v).2 p n
    have hframe := rboxfnmut_callN_frame code
      (⟨boxFnMutCaller code, boxDropper C, (h.alloc v).1⟩ : RBoxFnMut C P R) rfl (h.alloc v).2 p n
    simp only [RBoxFnMut.drop, hfst, boxDropper]
    rw [Heap.free_count_self, hframe.1, Heap.alloc_freed, hnext, Heap.WF_count_next h hw]

/-- Witness for C4 at a concrete input: environment 5 boxed into the
empty heap, three calls with parameter 2, then drop: one release each. -/
theorem rbox_drop_exactly_once_witness :
    (Heap.empty Nat).WF ∧
    (((RBoxFn.drop
        (((RBoxFn.fromFn (fun (c p : Nat) => (c + p, c)) 5 (Heap.empty Nat)).1.callN
          (RBoxFn.fromFn (fun (c p : Nat) => (c + p, c)) 5 (Heap.empty Nat)).2 2 3).1)
        (((RBoxFn.fromFn (fun (c p : Nat) => (c + p, c)) 5 (Heap.empty Nat)).1.callN
          (RBoxFn.fromFn (fun (c p : Nat) => (c + p, c)) 5 (Heap.empty Nat)).2 2 3).2)).freed.count
        (RBoxFn.fromFn (fun (c p : Nat) => (c + p, c)) 5 (Heap.empty Nat)).1.inner = 1) ∧
     ((RBoxFnMut.drop
        (((RBoxFnMut.fromFn (fun (c p : Nat) => (c + p, c)) 5 (Heap.empty Nat)).1.callN
          (RBoxFnMut.fromFn (fun (c p : Nat) => (c + p, c)) 5 (Heap.empty Nat)).2 2 3).1)
        (((RBoxFnMut.fromFn (fun (c p : Nat) => (c + p, c)) 5 (Heap.empty Nat)).1.callN
          (RBoxFnMut.fromFn (fun (c p : Nat) => (c + p, c)) 5 (Heap.empty Nat)).2 2 3).2)).freed.count
        (RBoxFnMut.fromFn (fun (c p : Nat) => (c + p, c)) 5 (Heap.empty Nat)).1.inner = 1)) :=
  ⟨⟨le_refl 1, by simp [Heap.empty]⟩,
   rbox_drop_exactly_once (fun c p => (c + p, c)) 5 2 (Heap.empty Nat)
     ⟨le_refl 1, by simp [Heap.empty]⟩ 3 _ _ rfl _ _ rfl⟩

/-- C10: any number of calls on an owning shared or mutable adapter
leaves the adapter's three stored fields (dispatch reference, teardown
reference, opaque handle) unchanged; the handle is never overwritten
with the zero sentinel, so a discard after the calls still releases the
environment (the cell dies and the handle is logged as freed). -/
theorem rbox_call_preserves_fields
    (code : C → P → R × C) (v : C) (p : P) (h : Heap C) (hw : h.WF) (n : Nat)
    (s : RBoxFn C P R) (h1 : Heap C) (hs : RBoxFn.fromFn code v h = (s, h1))
    (t : RBoxFnMut C P R) (h2 : Heap C) (ht : RBoxFnMut.fromFn code v h = (t, h2)) :
    ((s.callN h1 p n).1 = s) ∧ ((t.callN h2 p n).1 = t) ∧
    s.inner ≠ 0 ∧ t.inner ≠ 0 ∧
    ((RBoxFn.drop (s.callN h1 p n).1 (s.callN h1 p n).2).contents s.inner = none ∧
      s.inner ∈ (RBoxFn.drop (s.callN h1 p n).1 (s.callN h1 p n).2).freed) ∧
    ((RBoxFnMut.drop (t.callN h2 p n).1 (t.callN h2 p n).2).contents t.inner = none ∧
      t.inner ∈ (RBoxFnMut.drop (t.callN h2 p n).1 (t.callN h2 p n).2).freed) := by
  have hnz : (h.alloc v).1 ≠ 0 := by
    have : 1 ≤ h.next := hw.1
    simpa [Heap.alloc] using Nat.pos_iff_ne_zero.mp (lt_of_lt_of_le Nat.zero_lt_one this)
  have hsub1 : s = (⟨boxFnCaller code, boxDropper C, (h.alloc v).1⟩ : RBoxFn C P R) := by
    have := congrArg Prod.fst hs
    exact this.symm
  have hsub2 : h1 = (h.alloc v).2 := by
    have := congrArg Prod.snd hs
    exact this.symm
  have htub1 : t = (⟨boxFnMutCaller code, boxDropper C, (h.alloc v).1⟩ : RBoxFnMut C P R) := by
    have := congrArg Prod.fst ht
    exact this.symm
  have htub2 : h2 = (h.alloc v).2 := by
    have := congrArg Prod.snd ht
    exact this.symm
  subst hsub1 hsub2 htub1 htub2
  have hfstS := rboxfn_callN_fst
    (⟨boxFnCaller code, boxDropper C, (h.alloc v).1⟩ : RBoxFn C P R) (h.alloc v).2 p n
  have hfstT := rboxfnmut_callN_fst
    (⟨boxFnMutCaller code, boxDropper C, (h.alloc v).1⟩ : RBoxFnMut C P R) (h.alloc v).2 p n
  refine ⟨hfstS, hfstT, hnz, hnz, ⟨?_, ?_⟩, ⟨?_, ?_⟩⟩
  · simp only [RBoxFn.drop, hfstS, boxDropper]
    exact Heap.free_contents_self _ _
  · simp only [RBoxFn.drop, hfstS, boxDropper]
    exact Heap.free_mem_freed _ _
  · simp only [RBoxFnMut.drop, hfstT, boxDropper]
    exact Heap.free_contents_self _ _
  · simp only [RBoxFnMut.drop, hfstT, boxDropper]
    exact Heap.free_mem_freed _ _

/-- Witness for C10 at a concrete input: environment 5, three calls with
parameter 2, then drop; fields survive the calls and the drop releases. -/
theorem rbox_call_preserves_fields_witness :
    (Heap.empty Nat).WF ∧
    ((((RBoxFn.fromFn (fun (c p : Nat) => (c + p, c)) 5 (Heap.empty Nat)).1.callN
        (RBoxFn.fromFn (fun (c p : Nat) => (c + p, c)) 5 (Heap.empty Nat)).2 2 3).1
      = (RBoxFn.fromFn (fun (c p : Nat) => (c + p, c)) 5 (Heap.empty Nat)).1) ∧
     (((RBoxFnMut.fromFn (fun (c p : Nat) => (c + p, c)) 5 (Heap.empty Nat)).1.callN
        (RBoxFnMut.fromFn (fun (c p : Nat) => (c + p, c)) 5 (Heap.empty Nat)).2 2 3).1
      = (RBoxFnMut.fromFn (fun (c p : Nat) => (c + p, c)) 5 (Heap.empty Nat)).1) ∧
     (RBoxFn.fromFn (fun (c p : Nat) => (c + p, c)) 5 (Heap.empty Nat)).1.inner ≠ 0 ∧
     (RBoxFnMut.fromFn (fun (c p : Nat) => (c + p, c)) 5 (Heap.empty Nat)).1.inner ≠ 0 ∧
     ((RBoxFn.drop
        (((RBoxFn.fromFn (fun (c p : Nat) => (c + p, c)) 5 (Heap.empty Nat)).1.callN
          (RBoxFn.fromFn (fun (c p : Nat) => (c + p, c)) 5 (Heap.empty Nat)).2 2 3).1)
        (((RBoxFn.fromFn (fun (c p : Nat) => (c + p, c)) 5 (Heap.empty Nat)).1.callN
          (RBoxFn.fromFn (fun (c p : Nat) => (c + p, c)) 5 (Heap.empty Nat)).2 2 3).2)).contents
        (RBoxFn.fromFn (fun (c p : Nat) => (c + p, c)) 5 (Heap.empty Nat)).1.inner = none ∧
      (RBoxFn.fromFn (fun (c p : Nat) => (c + p, c)) 5 (Heap.empty Nat)).1.inner ∈
        (RBoxFn.drop
          (((RBoxFn.fromFn (fun (c p : Nat) => (c + p, c)) 5 (Heap.empty Nat)).1.callN
            (RBoxFn.fromFn (fun (c p : Nat) => (c + p, c)) 5 (Heap.empty Nat)).2 2 3).1)
          (((RBoxFn.fromFn (fun (c p : Nat) => (c + p, c)) 5 (Heap.empty Nat)).1.callN
            (RBoxFn.fromFn (fun (c p : Nat) => (c + p, c)) 5 (Heap.empty Nat)).2 2 3).2)).freed) ∧
     ((RBoxFnMut.drop
        (((RBoxFnMut.fromFn (fun (c p : Nat) => (c + p, c)) 5 (Heap.empty Nat)).1.callN
          (RBoxFnMut.fromFn (fun (c p : Nat) => (c + p, c)) 5 (Heap.empty Nat)).2 2 3).1)
        (((RBoxFnMut.fromFn (fun (c p : Nat) => (c + p, c)) 5 (Heap.empty Nat)).1.callN
          (RBoxFnMut.fromFn (fun (c p : Nat) => (c + p, c)) 5 (Heap.empty Nat)).2 2 3).2)).contents
        (RBoxFnMut.fromFn (fun (c p : Nat) => (c + p, c)) 5 (Heap.empty Nat)).1.inner = none ∧
      (RBoxFnMut.fromFn (fun (c p : Nat) => (c + p, c)) 5 (Heap.empty Nat)).1.inner ∈
        (RBoxFnMut.drop
          (((RBoxFnMut.fromFn (fun (c p : Nat) => (c + p, c)) 5 (Heap.empty Nat)).1.callN
            (RBoxFnMut.fromFn (fun (c p : Nat) => (c + p, c)) 5 (Heap.empty Nat)).2 2 3).1)
          (((RBoxFnMut.fromFn (fun (c p : Nat) => (c + p, c)) 5 (Heap.empty Nat)).1.callN
            (RBoxFnMut.fromFn (fun (c p : Nat) => (c + p, c)) 5 (Heap.empty Nat)).2 2 3).2)).freed)) :=
  ⟨⟨le_refl 1, by simp [Heap.empty]⟩,
   rbox_call_preserves_fields (fun c p => (c + p, c)) 5 2 (Heap.empty Nat)
     ⟨le_refl 1, by simp [Heap.empty]⟩ 3 _ _ rfl _ _ rfl⟩

/-- C5: for all `n ≥ 0`, invoking a shared-borrow adapter wrapping a
callable with interior-mutable captured state `n` times leaves that
state exactly where `n` direct invocations of the original callable
would: the referenced cell holds the `n`-fold direct iterate (a counter
incremented once per call reaches exactly `n` after `n` calls). -/
theorem rreffn_callN_cumulative
    (code : C → P → R × C) (c : C) (a : Nat) (h : Heap C) (p : P) (n : Nat)
    (hc : h.contents a = some c) :
    ((RRefFn.fromRef code a).callN h p n).contents a
      = some (FnClosure.invokeN code c p n) :=
  (rreffn_callN_invariant code c a h p n hc).1

/-- Witness for C5 at a concrete input: a counter starting at 0 behind
address 1, incremented once per call; after 3 calls through the adapter
it is exactly 3. -/
theorem rreffn_callN_cumulative_witness :
    (((Heap.empty Nat).alloc 0).2.contents 1 = some 0) ∧
    ((RRefFn.fromRef (fun (c : Nat) (_ : Unit) => ((), c + 1)) 1).callN
        ((Heap.empty Nat).alloc 0).2 () 3).contents 1 = some 3 :=
  ⟨rfl, rreffn_callN_cumulative (fun c _ => ((), c + 1)) 0 1
      ((Heap.empty Nat).alloc 0).2 () 3 rfl⟩

/-- C6: an owning mutable adapter accumulates mutations across calls:
wrapping owned text "Hello" with a closure that appends its argument and
returns the accumulated text, a call with argument "!" yields "Hello!"
and a second call with argument "!!" then yields "Hello!!!". -/
theorem rboxfnmut_accumulates :
    ((RBoxFnMut.fromFn (fun (s ex : String) => (s ++ ex, s ++ ex)) "Hello"
        (Heap.empty String)).1.call
      (RBoxFnMut.fromFn (fun (s ex : String) => (s ++ ex, s ++ ex)) "Hello"
        (Heap.empty String)).2 ("!")).1 = some ("Hello!") ∧
    (((RBoxFnMut.fromFn (fun (s ex : String) => (s ++ ex, s ++ ex)) "Hello"
        (Heap.empty String)).1.call
      (RBoxFnMut.fromFn (fun (s ex : String) => (s ++ ex, s ++ ex)) "Hello"
        (Heap.empty String)).2 ("!")).2.1.call
      ((RBoxFnMut.fromFn (fun (s ex : String) => (s ++ ex, s ++ ex)) "Hello"
        (Heap.empty String)).1.call
        (RBoxFnMut.fromFn (fun (s ex : String) => (s ++ ex, s ++ ex)) "Hello"
          (Heap.empty String)).2 ("!")).2.2 ("!!")).1 = some ("Hello!!!") := by
  constructor <;> decide

/-- C7: a shared-borrow or owning-shared adapter whose callable returns
a value derived from the captured environment (and leaves the
environment unchanged) returns equal values across two separate calls:
both calls return exactly the value derived from the original state. -/
theorem shared_adapters_stable_result (g : C → R) (c : C) (a : Nat) (h : Heap C)
    (p q : P) (hc : h.contents a = some c) :
    ((RRefFn.fromRef (fun x (_ : P) => (g x, x)) a).call h p).1 = some (g c) ∧
    ((RRefFn.fromRef (fun x (_ : P) => (g x, x)) a).call
        ((RRefFn.fromRef (fun x (_ : P) => (g x, x)) a).call h p).2 q).1 = some (g c) ∧
    ((RBoxFn.fromFn (fun x (_ : P) => (g x, x)) c h).1.call
        (RBoxFn.fromFn (fun x (_ : P) => (g x, x)) c h).2 p).1 = some (g c) ∧
    (((RBoxFn.fromFn (fun x (_ : P) => (g x, x)) c h).1.call
        (RBoxFn.fromFn (fun x (_ : P) => (g x, x)) c h).2 p).2.1.call
      ((RBoxFn.fromFn (fun x (_ : P) => (g x, x)) c h).1.call
        (RBoxFn.fromFn (fun x (_ : P) => (g x, x)) c h).2 p).2.2 q).1 = some (g c) := by
  have e1 : refFnPtr (fun x (_ : P) => (g x, x)) h a p = (some (g c), h.write a c) := by
    rw [refFnPtr_eq_boxFnCaller]
    exact boxFnCaller_contents _ h a p hc
  have e2 : refFnPtr (fun x (_ : P) => (g x, x)) (h.write a c) a q
      = (some (g c), (h.write a c).write a c) := by
    rw [refFnPtr_eq_boxFnCaller]
    exact boxFnCaller_contents _ _ a q (Heap.write_contents_self h a c)
  have b1 : boxFnCaller (fun x (_ : P) => (g x, x)) (h.alloc c).2 (h.alloc c).1 p
      = (some (g c), (h.alloc c).2.write (h.alloc c).1 c) :=
    boxFnCaller_contents _ _ _ p (Heap.alloc_contents_self h c)
  have b2 : boxFnCaller (fun x (_ : P) => (g x, x))
        ((h.alloc c).2.write (h.alloc c).1 c) (h.alloc c).1 q
      = (some (g c), ((h.alloc c).2.write (h.alloc c).1 c).write (h.alloc c).1 c) :=
    boxFnCaller_contents _ _ _ q (Heap.write_contents_self _ _ c)
  refine ⟨?_, ?_, ?_, ?_⟩
  · show (refFnPtr (fun x (_ : P) => (g x, x)) h a p).1 = some (g c)
    rw [e1]
  · show (refFnPtr (fun x (_ : P) => (g x, x))
        (refFnPtr (fun x (_ : P) => (g x, x)) h a p).2 a q).1 = some (g c)
    rw [e1]
    rw [e2]
  · show (boxFnCaller (fun x (_ : P) => (g x, x)) (h.alloc c).2 (h.alloc c).1 p).1 = some (g c)
    rw [b1]
  · show (boxFnCaller (fun x (_ : P) => (g x, x))
        (boxFnCaller (fun x (_ : P) => (g x, x)) (h.alloc c).2 (h.alloc c).1 p).2
        (h.alloc c).1 q).1 = some (g c)
    rw [b1]
    rw [b2]

/-- Witness for C7 at a concrete input: wrapping owned text "Value" and
calling twice returns "Value" both times, through the shared borrow
adapter and through the owning shared adapter. -/
theorem shared_adapters_stable_result_witness :
    (((Heap.empty String).alloc ("Value")).2.contents 1 = some ("Value")) ∧
    (((RRefFn.fromRef (fun x (_ : Unit) => (x, x)) 1).call
        ((Heap.empty String).alloc ("Value")).2 ()).1 = some ("Value") ∧
     ((RRefFn.fromRef (fun x (_ : Unit) => (x, x)) 1).call
        ((RRefFn.fromRef (fun x (_ : Unit) => (x, x)) 1).call
          ((Heap.empty String).alloc ("Value")).2 ()).2 ()).1 = some ("Value") ∧
     ((RBoxFn.fromFn (fun x (_ : Unit) => (x, x)) "Value"
          ((Heap.empty String).alloc ("Value")).2).1.call
        (RBoxFn.fromFn (fun x (_ : Unit) => (x, x)) "Value"
          ((Heap.empty String).alloc ("Value")).2).2 ()).1 = some ("Value") ∧
     (((RBoxFn.fromFn (fun x (_ : Unit) => (x, x)) "Value"
          ((Heap.empty String).alloc ("Value")).2).1.call
        (RBoxFn.fromFn (fun x (_ : Unit) => (x, x)) "Value"
          ((Heap.empty String).alloc ("Value")).2).2 ()).2.1.call
       ((RBoxFn.fromFn (fun x (_ : Unit) => (x, x)) "Value"
          ((Heap.empty String).alloc ("Value")).2).1.call
         (RBoxFn.fromFn (fun x (_ : Unit) => (x, x)) "Value"
          ((Heap.empty String).alloc ("Value")).2).2 ()).2.2 ()).1 = some ("Value")) :=
  ⟨rfl, shared_adapters_stable_result (fun x => x) "Value" 1
      ((Heap.empty String).alloc ("Value")).2 () () rfl⟩

/-- C8: a borrow adapter never deallocates or releases the referenced
environment: after construction, any number of calls, and discard (a
no-op, since neither borrow adapter implements `Drop`), the freed log is
untouched and the externally owned value is still live at its address. -/
theorem borrow_adapters_never_release
    (code : C → P → R × C) (c : C) (a : Nat) (h : Heap C) (p : P) (n : Nat)
    (hc : h.contents a = some c) :
    ((RRefFn.fromRef code a).drop ((RRefFn.fromRef code a).callN h p n)).freed
        = h.freed ∧
    (((RRefFn.fromRef code a).drop
        ((RRefFn.fromRef code a).callN h p n)).contents a).isSome = true ∧
    ((RRefFnMut.fromMutRef code a).drop
        ((RRefFnMut.fromMutRef code a).callN h p n)).freed = h.freed ∧
    (((RRefFnMut.fromMutRef code a).drop
        ((RRefFnMut.fromMutRef code a).callN h p n)).contents a).isSome = true := by
  obtain ⟨s1, s2, _⟩ := rreffn_callN_invariant code c a h p n hc
  obtain ⟨t1, t2, _⟩ := rreffnmut_callN_invariant code c a h p n hc
  refine ⟨s2, ?_, t2, ?_⟩
  · show (((RRefFn.fromRef code a).callN h p n).contents a).isSome = true
    rw [s1]
    rfl
  · show (((RRefFnMut.fromMutRef code a).callN h p n).contents a).isSome = true
    rw [t1]
    rfl

/-- Witness for C8 at a concrete input: an adder behind address 1,
called 3 times with parameter 2 and then discarded: nothing was ever
freed and the cell is still live. -/
theorem borrow_adapters_never_release_witness :
    (((Heap.empty Nat).alloc 5).2.contents 1 = some 5) ∧
    (((RRefFn.fromRef (fun (c p : Nat) => (c + p, c + p)) 1).drop
        ((RRefFn.fromRef (fun (c p : Nat) => (c + p, c + p)) 1).callN
          ((Heap.empty Nat).alloc 5).2 2 3)).freed = ((Heap.empty Nat).alloc 5).2.freed ∧
     (((RRefFn.fromRef (fun (c p : Nat) => (c + p, c + p)) 1).drop
        ((RRefFn.fromRef (fun (c p : Nat) => (c + p, c + p)) 1).callN
          ((Heap.empty Nat).alloc 5).2 2 3)).contents 1).isSome = true ∧
     ((RRefFnMut.fromMutRef (fun (c p : Nat) => (c + p, c + p)) 1).drop
        ((RRefFnMut.fromMutRef (fun (c p : Nat) => (c + p, c + p)) 1).callN
          ((Heap.empty Nat).alloc 5).2 2 3)).freed = ((Heap.empty Nat).alloc 5).2.freed ∧
     (((RRefFnMut.fromMutRef (fun (c p : Nat) => (c + p, c + p)) 1).drop
        ((RRefFnMut.fromMutRef (fun (c p : Nat) => (c + p, c + p)) 1).callN
          ((Heap.empty Nat).alloc 5).2 2 3)).contents 1).isSome = true) :=
  ⟨rfl, borrow_adapters_never_release (fun c p => (c + p, c + p)) 5 1
      ((Heap.empty Nat).alloc 5).2 2 3 rfl⟩
